import Mathlib

/-!
Verification of the `ratelimiter` package of the goUtils repository
(`src/unnamed/part_006`), a token-bucket rate limiter built from a buffered
channel `tokens`, a mutex-guarded counter `tokenCount`, a fixed `interval`
and a background refill goroutine.

The concurrent behaviour is embedded as a small-step transition system.
Atomic steps are exactly the atomic operations of the Go source:
  * `waitRecv` — the channel receive `<-rl.tokens` at the head of `Wait()`
    (blocks, i.e. is disabled, when the buffer is empty);
  * `waitDec`  — the locked decrement `rl.tokenCount--` that follows it;
  * `tick`     — one execution of the locked refill body in `refillTokens`.
Arbitrary interleavings of these steps model arbitrarily many concurrent
`Wait()` callers racing the single refill goroutine: the mutex makes each
locked section atomic, and Go channel operations are atomic.
-/

namespace GoUtils.Ratelimiter

/-- Runtime panics that the `ratelimiter` construction path can raise in Go:
integer division by zero (`time.Second / time.Duration(0)`), a negative
buffer size passed to `make(chan struct\x7b\x7d, maxTokens)`, and
`time.NewTicker` called with a non-positive duration. -/
inductive GoPanic where
  | divideByZero
  | makeChanSizeOutOfRange
  | tickerNonPositiveInterval
  deriving DecidableEq, Repr

/-- State of one limiter instance together with the in-flight bookkeeping of
its callers. Embeds the Go struct `RateLimiter`:
  * `chanLen`    — number of buffered values in the channel `rl.tokens`;
  * `tokenCount` — the Go `int` field `rl.tokenCount`;
  * `maxTokens`  — the Go `int` field `rl.maxTokens` (also the channel
    capacity, from `make(chan struct\x7b\x7d, maxTokens)`);
  * `interval`   — the Go `time.Duration` field `rl.interval`, nanoseconds;
  * `pending`    — number of `Wait()` callers that have completed the channel
    receive but not yet the locked `tokenCount--`;
  * `ticks`, `grants` — ghost counters: refill-loop iterations executed so
    far, and `Wait()` calls completed so far. -/
structure SysState where
  chanLen : Nat
  pending : Nat
  tokenCount : Int
  maxTokens : Int
  interval : Int
  ticks : Nat
  grants : Nat
  deriving DecidableEq, Repr

/-- The state of a limiter just constructed by `NewRateLimiter(N)` for
`N > 0`: the constructor fills the channel with `maxTokens` values, sets
`tokenCount = maxTokens = N` and `interval = time.Second / time.Duration(N)`
(Go integer division of `10^9` nanoseconds by `N`). -/
def initState (N : Nat) : SysState :=
  { chanLen := N
    pending := 0
    tokenCount := (N : Int)
    maxTokens := (N : Int)
    interval := ((1000000000 / N : Nat) : Int)
    ticks := 0
    grants := 0 }

/-- The atomic actions of the system (see the module docstring). -/
inductive Act where
  | waitRecv
  | waitDec
  | tick
  deriving DecidableEq, Repr

/-- One iteration of the loop body of `refillTokens`, executed under
`rl.mu`: if `tokenCount < maxTokens`, try a non-blocking send on the channel
(`select` with a `default` branch — the send succeeds exactly when the
buffer is below the channel capacity `maxTokens`) and increment `tokenCount`
on success; otherwise do nothing. `ticks` is the ghost tick counter. -/
def tickStep (s : SysState) : SysState :=
  if s.tokenCount < s.maxTokens then
    if (s.chanLen : Int) < s.maxTokens then
      { s with chanLen := s.chanLen + 1
               tokenCount := s.tokenCount + 1
               ticks := s.ticks + 1 }
    else
      { s with ticks := s.ticks + 1 }
  else
    { s with ticks := s.ticks + 1 }

/-- The step relation: `none` means the action is disabled (a blocked
channel receive, or no caller between its receive and its decrement). -/
def step : Act → SysState → Option SysState
  | Act.waitRecv, s =>
      if s.chanLen = 0 then none
      else some { s with chanLen := s.chanLen - 1, pending := s.pending + 1 }
  | Act.waitDec, s =>
      if s.pending = 0 then none
      else some { s with pending := s.pending - 1
                         tokenCount := s.tokenCount - 1
                         grants := s.grants + 1 }
  | Act.tick, s => some (tickStep s)

/-- States reachable from a freshly constructed limiter of rate `N` by any
interleaving of the atomic actions. -/
inductive Reach (N : Nat) : SysState → Prop where
  | init : Reach N (initState N)
  | next (a : Act) (s s' : SysState) : Reach N s → step a s = some s' →
      Reach N s'

/-- Result of a successful `NewRateLimiter` call: the initial limiter state
and the number of background goroutines the constructor spawned (the source
has exactly one `go rl.refillTokens()` statement). -/
structure InitResult where
  state : SysState
  spawnedTasks : Nat
  deriving DecidableEq, Repr

/-- `NewRateLimiter(rps)` embedded with its Go panic behaviour. The body
evaluates, in order: `make(chan struct\x7b\x7d, maxTokens)` — which panics
with a size-out-of-range runtime error when `maxTokens = rps < 0` — then
`time.Second / time.Duration(rps)` — which panics with an integer
divide-by-zero when `rps = 0`. For `rps > 0` it fills the channel, spawns
the single refill goroutine and returns the limiter. `Except.error`
represents a panic: the Go function's only declared result is
`*RateLimiter`, it has no error return value. -/
def newRateLimiter (rps : Int) : Except GoPanic InitResult :=
  if rps < 0 then Except.error GoPanic.makeChanSizeOutOfRange
  else if rps = 0 then Except.error GoPanic.divideByZero
  else Except.ok { state := initState rps.toNat, spawnedTasks := 1 }

/-- `time.NewTicker(d)` from the Go standard library, called at the top of
`refillTokens`: it panics when the duration is not positive, and otherwise
starts delivering ticks. Only the panic behaviour matters here. -/
def newTicker (d : Int) : Except GoPanic Unit :=
  if d ≤ 0 then Except.error GoPanic.tickerNonPositiveInterval
  else Except.ok ()

/-- The complete list of top-level declarations of the `ratelimiter`
package in the source, in order of appearance. -/
def ratelimiterDecls : List String :=
  ["RateLimiter", "NewRateLimiter", "refillTokens", "Wait"]

/-- The result types in `NewRateLimiter`'s Go signature,
`func NewRateLimiter(rps int) *RateLimiter`. -/
def newRateLimiterResultTypes : List String := ["*RateLimiter"]

/-- One whole `Wait()` call, as a composite of its two atomic steps: the
channel receive followed by the locked decrement. Defined only to state
properties of a completed call; individual interleavings go through `step`. -/
def waitCall (s : SysState) : Option SysState :=
  (step Act.waitRecv s).bind (step Act.waitDec)

/-- `n` back-to-back `Wait()` calls. -/
def waitCalls : Nat → SysState → Option SysState
  | 0, s => some s
  | n + 1, s => (waitCall s).bind (waitCalls n)

/-- The result types in `Wait`'s Go signature,
`func (rl *RateLimiter) Wait()`: there are none. -/
def waitResultTypes : List String := []

/-- The state of a limiter of rate `N` whose initial burst has been fully
consumed by `N` completed `Wait()` calls, before any refill tick. -/
def drainedState (N : Nat) : SysState :=
  { chanLen := 0
    pending := 0
    tokenCount := 0
    maxTokens := (N : Int)
    interval := ((1000000000 / N : Nat) : Int)
    ticks := 0
    grants := N }

/-- Two limiter instances side by side; an action is tagged with the
instance it belongs to. Each Go `RateLimiter` owns all of its fields
(channel, mutex, counters) and the package has no package-level state, so a
step of one instance reads and writes only that instance's component. -/
def pairStep : Act ⊕ Act → SysState × SysState → Option (SysState × SysState)
  | Sum.inl a, p => (step a p.1).map (fun s => (s, p.2))
  | Sum.inr a, p => (step a p.2).map (fun s => (p.1, s))

/-- Run a sequence of tagged actions on a pair of limiters. -/
def pairRun : List (Act ⊕ Act) → SysState × SysState → Option (SysState × SysState)
  | [], p => some p
  | a :: rest, p => (pairStep a p).bind (pairRun rest)

/-- The inductive invariant of the system: `maxTokens` and `interval` are
the constructed constants, `tokenCount` equals the buffered tokens plus the
in-flight decrements, `tokenCount` never exceeds capacity, and the ghost
accounting equation bounding grants by initial fill plus ticks. -/
def Inv (N : Nat) (s : SysState) : Prop :=
  s.maxTokens = (N : Int) ∧
  s.interval = ((1000000000 / N : Nat) : Int) ∧
  s.tokenCount = (s.chanLen : Int) + (s.pending : Int) ∧
  s.tokenCount ≤ (N : Int) ∧
  s.grants + s.chanLen + s.pending ≤ N + s.ticks

lemma inv_initState (N : Nat) : Inv N (initState N) := by
  refine ⟨rfl, rfl, by simp [initState], by simp [initState], by
    simp [initState]⟩

lemma inv_step {N : Nat} {a : Act} {s s' : SysState} (hI : Inv N s)
    (h : step a s = some s') : Inv N s' := by
  obtain ⟨hmax, hint, heq, hle, hgh⟩ := hI
  cases a with
  | waitRecv =>
      by_cases hc : s.chanLen = 0
      · simp [step, hc] at h
      · simp only [step, hc, if_false, Option.some.injEq] at h
        subst h
        have h1 : 1 ≤ s.chanLen := Nat.one_le_iff_ne_zero.mpr hc
        refine ⟨hmax, hint, ?_, ?_, ?_⟩ <;> dsimp only <;> omega
  | waitDec =>
      by_cases hp : s.pending = 0
      · simp [step, hp] at h
      · simp only [step, hp, if_false, Option.some.injEq] at h
        subst h
        have h1 : 1 ≤ s.pending := Nat.one_le_iff_ne_zero.mpr hp
        refine ⟨hmax, hint, ?_, ?_, ?_⟩ <;> dsimp only <;> omega
  | tick =>
      simp only [step, Option.some.injEq] at h
      subst h
      unfold tickStep
      by_cases htc : s.tokenCount < s.maxTokens
      · by_cases hch : (s.chanLen : Int) < s.maxTokens
        · simp only [htc, hch, if_true]
          refine ⟨hmax, hint, ?_, ?_, ?_⟩ <;> dsimp only <;> omega
        · simp only [htc, hch, if_true, if_false]
          refine ⟨hmax, hint, ?_, ?_, ?_⟩ <;> dsimp only <;> omega
      · simp only [htc, if_false]
        refine ⟨hmax, hint, ?_, ?_, ?_⟩ <;> dsimp only <;> omega

lemma reach_inv {N : Nat} {s : SysState} (h : Reach N s) : Inv N s := by
  induction h with
  | init => exact inv_initState N
  | next a s s' _ hstep ih => exact inv_step ih hstep

lemma waitCall_none (s : SysState) (hc : s.chanLen = 0) : waitCall s = none := by
  simp [waitCall, step, hc]

lemma waitCall_some (s : SysState) (hc : s.chanLen ≠ 0) :
    waitCall s = some { s with chanLen := s.chanLen - 1
                               tokenCount := s.tokenCount - 1
                               grants := s.grants + 1 } := by
  simp [waitCall, step, hc]

lemma waitCalls_closed (k : Nat) (s : SysState) (hk : k ≤ s.chanLen) :
    waitCalls k s = some { s with chanLen := s.chanLen - k
                                  tokenCount := s.tokenCount - (k : Int)
                                  grants := s.grants + k } := by
  induction k generalizing s with
  | zero => simp [waitCalls]
  | succ n ih =>
      have hc : s.chanLen ≠ 0 := by omega
      rw [waitCalls, waitCall_some s hc, Option.some_bind,
        ih _ (by dsimp only; omega)]
      refine congrArg some ?_
      have h1 : s.chanLen - 1 - n = s.chanLen - (n + 1) := by omega
      have h2 : s.tokenCount - 1 - (n : Int) = s.tokenCount - ((n + 1 : Nat) : Int) := by
        push_cast
        ring
      have h3 : s.grants + 1 + n = s.grants + (n + 1) := by omega
      simp [h1, h2, h3]

lemma tickStep_ticks (s : SysState) : (tickStep s).ticks = s.ticks + 1 := by
  unfold tickStep
  split
  · split
    · rfl
    · rfl
  · rfl

lemma tickStep_tokenCount (s : SysState) :
    (tickStep s).tokenCount = s.tokenCount ∨
    (tickStep s).tokenCount = s.tokenCount + 1 := by
  unfold tickStep
  split
  · split
    · exact Or.inr rfl
    · exact Or.inl rfl
  · exact Or.inl rfl

/-- The drained state of a rate-1 limiter is reachable: one `Wait()`
(receive, then decrement) from the initial state. -/
lemma reach_drained1 : Reach 1 (drainedState 1) := by
  refine Reach.next Act.waitDec
    ⟨0, 1, 1, 1, 1000000000, 0, 0⟩ (drainedState 1)
    (Reach.next Act.waitRecv (initState 1) ⟨0, 1, 1, 1, 1000000000, 0, 0⟩
      Reach.init (by decide)) (by decide)

/-- C1: for every limiter constructed with capacity `N > 0` and every
interleaving of concurrent `Wait()` decrements and replenishment-tick
increments, `0 ≤ tokenCount ≤ N` holds at every reachable (observable)
state. -/
theorem tokenCount_bounds (N : Nat) (_hN : 0 < N) (s : SysState)
    (hs : Reach N s) : 0 ≤ s.tokenCount ∧ s.tokenCount ≤ (N : Int) := by
  obtain ⟨_, _, heq, hle, _⟩ := reach_inv hs
  exact ⟨by omega, hle⟩

theorem tokenCount_bounds_witness :
    (0 : Nat) < 1 ∧
    (0 ≤ (drainedState 1).tokenCount ∧
      (drainedState 1).tokenCount ≤ ((1 : Nat) : Int)) :=
  ⟨by decide, tokenCount_bounds 1 (by decide) (drainedState 1) reach_drained1⟩

/-- C2: `Wait()` blocks (its channel receive is disabled) exactly when no
permit is buffered; a completed `Wait()` decrements `tokenCount` by exactly
one and consumes one buffered permit; `Wait` declares no error result in
its Go signature; and no action other than a replenishment tick ever
increases `tokenCount` or the buffered permits — a consumed permit is never
refunded. -/
theorem wait_contract :
    (∀ s : SysState, step Act.waitRecv s = none ↔ s.chanLen = 0) ∧
    (∀ s t : SysState, waitCall s = some t →
        t.tokenCount = s.tokenCount - 1 ∧ t.chanLen = s.chanLen - 1 ∧
        t.grants = s.grants + 1) ∧
    waitResultTypes = [] ∧
    (∀ (a : Act) (s t : SysState), step a s = some t →
        s.tokenCount < t.tokenCount ∨ s.chanLen < t.chanLen → a = Act.tick) := by
  refine ⟨?_, ?_, rfl, ?_⟩
  · intro s
    by_cases hc : s.chanLen = 0 <;> simp [step, hc]
  · intro s t h
    by_cases hc : s.chanLen = 0
    · rw [waitCall_none s hc] at h
      exact absurd h (by simp)
    · rw [waitCall_some s hc, Option.some.injEq] at h
      subst h
      exact ⟨rfl, rfl, rfl⟩
  · intro a s t h hlt
    cases a with
    | waitRecv =>
        by_cases hc : s.chanLen = 0
        · simp [step, hc] at h
        · simp only [step, hc, if_false, Option.some.injEq] at h
          subst h
          dsimp only at hlt
          omega
    | waitDec =>
        by_cases hp : s.pending = 0
        · simp [step, hp] at h
        · simp only [step, hp, if_false, Option.some.injEq] at h
          subst h
          dsimp only at hlt
          omega
    | tick => rfl

theorem wait_contract_witness :
    waitCall (initState 2) = some ⟨1, 0, 1, 2, 500000000, 0, 1⟩ ∧
    ((⟨1, 0, 1, 2, 500000000, 0, 1⟩ : SysState).tokenCount
        = (initState 2).tokenCount - 1 ∧
      (⟨1, 0, 1, 2, 500000000, 0, 1⟩ : SysState).chanLen
        = (initState 2).chanLen - 1 ∧
      (⟨1, 0, 1, 2, 500000000, 0, 1⟩ : SysState).grants
        = (initState 2).grants + 1) :=
  ⟨by decide, wait_contract.2.1 (initState 2) ⟨1, 0, 1, 2, 500000000, 0, 1⟩
    (by decide)⟩

/-- C3: on every refill tick taken from a reachable state: if
`tokenCount < maxTokens` then exactly one permit is added (`tokenCount` and
the buffer each grow by exactly 1); if the bucket is full the tick changes
nothing observable; and no tick ever adds more than one permit, so missed
or discarded ticks are never compensated. -/
theorem refill_tick_contract (N : Nat) (s : SysState) (hs : Reach N s) :
    (s.tokenCount < s.maxTokens →
        (tickStep s).tokenCount = s.tokenCount + 1 ∧
        (tickStep s).chanLen = s.chanLen + 1) ∧
    (s.tokenCount = s.maxTokens →
        (tickStep s).tokenCount = s.tokenCount ∧
        (tickStep s).chanLen = s.chanLen ∧
        (tickStep s).pending = s.pending ∧
        (tickStep s).grants = s.grants) ∧
    (tickStep s).tokenCount ≤ s.tokenCount + 1 ∧
    (tickStep s).ticks = s.ticks + 1 := by
  obtain ⟨hmax, _, heq, hle, _⟩ := reach_inv hs
  refine ⟨?_, ?_, ?_, tickStep_ticks s⟩
  · intro hlt
    have hch : (s.chanLen : Int) < s.maxTokens := by omega
    simp [tickStep, hlt, hch]
  · intro heqmax
    have hlt : ¬s.tokenCount < s.maxTokens := by omega
    simp [tickStep, hlt]
  · rcases tickStep_tokenCount s with h | h <;> omega

theorem refill_tick_contract_witness :
    (drainedState 1).tokenCount < (drainedState 1).maxTokens ∧
    ((tickStep (drainedState 1)).tokenCount = (drainedState 1).tokenCount + 1 ∧
      (tickStep (drainedState 1)).chanLen = (drainedState 1).chanLen + 1) :=
  ⟨by decide, (refill_tick_contract 1 (drainedState 1) reach_drained1).1
    (by decide)⟩

/-- C4: for every `ratePerSecond = N > 0`, `NewRateLimiter` returns a
limiter with `maxTokens = N`, `tokenCount = maxTokens` (fully charged:
`N` permits buffered in the channel), refill interval
`time.Second / time.Duration(N)` — `10^9 / N` nanoseconds — and it spawns
exactly one background replenishment goroutine. -/
theorem construction_contract (N : Nat) (hN : 0 < N) :
    newRateLimiter (N : Int)
        = Except.ok { state := initState N, spawnedTasks := 1 } ∧
    (initState N).maxTokens = (N : Int) ∧
    (initState N).tokenCount = (initState N).maxTokens ∧
    (initState N).chanLen = N ∧
    (initState N).pending = 0 ∧
    (initState N).interval = ((1000000000 / N : Nat) : Int) := by
  refine ⟨?_, rfl, rfl, rfl, rfl, rfl⟩
  have h1 : ¬((N : Int) < 0) := by omega
  have h2 : ¬((N : Int) = 0) := by omega
  simp [newRateLimiter, h1, h2]

theorem construction_contract_witness :
    (0 : Nat) < 5 ∧
    newRateLimiter (5 : Int)
      = Except.ok { state := initState 5, spawnedTasks := 1 } ∧
    (initState 5).interval = 200000000 :=
  ⟨by decide, (construction_contract 5 (by decide)).1, by decide⟩

/-- C5 counterexample: at `ratePerSecond = 0` the constructor does not fail
with a `ConfigurationError` returned to the caller — it aborts with an
integer divide-by-zero runtime panic in the interval computation, and its
Go signature declares no error result at all. -/
theorem construction_zero_counterexample :
    newRateLimiter 0 = Except.error GoPanic.divideByZero ∧
    "error" ∉ newRateLimiterResultTypes := by
  constructor
  · rfl
  · decide

/-- C5 amended: for every `ratePerSecond ≤ 0` the constructor never returns
an error value (its only declared result is `*RateLimiter`); construction
aborts with a runtime panic — divide-by-zero for `rps = 0`, channel-size
out of range for `rps < 0` — so no limiter is returned and no background
replenishment task is started. -/
theorem construction_nonpos_no_error (rps : Int) (h : rps ≤ 0) :
    (∃ p, newRateLimiter rps = Except.error p) ∧
    (∀ r : InitResult, newRateLimiter rps ≠ Except.ok r) ∧
    "error" ∉ newRateLimiterResultTypes := by
  rcases lt_or_eq_of_le h with hlt | heq
  · refine ⟨⟨GoPanic.makeChanSizeOutOfRange, ?_⟩, ?_, by decide⟩
    · simp [newRateLimiter, hlt]
    · intro r hr
      simp [newRateLimiter, hlt] at hr
  · subst heq
    refine ⟨⟨GoPanic.divideByZero, rfl⟩, ?_, by decide⟩
    intro r hr
    simp [newRateLimiter] at hr

theorem construction_nonpos_no_error_witness :
    (-3 : Int) ≤ 0 ∧
    ((∃ p, newRateLimiter (-3) = Except.error p) ∧
      (∀ r : InitResult, newRateLimiter (-3) ≠ Except.ok r) ∧
      "error" ∉ newRateLimiterResultTypes) :=
  ⟨by decide, construction_nonpos_no_error (-3) (by decide)⟩

/-- C6: with capacity `N > 0`, immediately after construction and before
any refill tick, `N` `Wait()` calls all complete without blocking (the
compound `waitCalls N` succeeds) leaving the drained state; an `(N+1)`-th
`Wait()`'s channel receive is then disabled (blocks); and after one refill
tick the receive is enabled again (the tick supplies the permit). -/
theorem burst_capacity_exact (N : Nat) (hN : 0 < N) :
    waitCalls N (initState N) = some (drainedState N) ∧
    step Act.waitRecv (drainedState N) = none ∧
    (step Act.waitRecv (tickStep (drainedState N))).isSome = true := by
  refine ⟨?_, ?_, ?_⟩
  · rw [waitCalls_closed N (initState N) (by simp [initState])]
    refine congrArg some ?_
    simp [initState, drainedState]
  · simp [step, drainedState]
  · have h1 : (0 : Int) < (N : Int) := by omega
    simp [tickStep, drainedState, step, h1]

theorem burst_capacity_exact_witness :
    (0 : Nat) < 3 ∧
    (waitCalls 3 (initState 3) = some (drainedState 3) ∧
      step Act.waitRecv (drainedState 3) = none ∧
      (step Act.waitRecv (tickStep (drainedState 3))).isSome = true) :=
  ⟨by decide, burst_capacity_exact 3 (by decide)⟩

/-- C7: in every execution of a limiter of capacity `N`, the number of
completed `Wait()` grants never exceeds `N` (the initial fill) plus the
number of replenishment ticks executed so far: permits are created only by
the initial fill and at most one per tick. -/
theorem grants_bounded (N : Nat) (s : SysState) (hs : Reach N s) :
    s.grants ≤ N + s.ticks := by
  obtain ⟨_, _, _, _, hgh⟩ := reach_inv hs
  omega

theorem grants_bounded_witness :
    (drainedState 1).grants ≤ 1 + (drainedState 1).ticks :=
  grants_bounded 1 (drainedState 1) reach_drained1

/-- C8 counterexample: the `ratelimiter` package declares no `Stop` and no
`Close` — its only top-level declarations are the struct, the constructor,
the refill loop and `Wait` — so no explicit shutdown operation exists. -/
theorem no_shutdown_counterexample :
    "Stop" ∉ ratelimiterDecls ∧ "Close" ∉ ratelimiterDecls := by
  decide

/-- C8 amended: the limiter exposes no shutdown operation (`Stop`/`Close`
do not exist); the system's only actions are the two halves of `Wait` and
the refill tick, and the refill tick is enabled in every state — the
`for range ticker.C` loop has no exit, so the replenishment process runs
for the remaining life of the process and never reaches a stopped state. -/
theorem no_shutdown_amended :
    ("Stop" ∉ ratelimiterDecls ∧ "Close" ∉ ratelimiterDecls) ∧
    (∀ s : SysState, (step Act.tick s).isSome = true) ∧
    (∀ a : Act, a = Act.waitRecv ∨ a = Act.waitDec ∨ a = Act.tick) := by
  refine ⟨by decide, fun s => rfl, fun a => ?_⟩
  cases a
  · exact Or.inl rfl
  · exact Or.inr (Or.inl rfl)
  · exact Or.inr (Or.inr rfl)

/-- C9: the package has no shared state between instances, so for any two
limiters, any sequence of `Wait` / refill steps applied entirely to one
leaves the complete state of the other (permits, interval, capacity, all
fields) unchanged. -/
theorem limiter_independence (acts : List (Act ⊕ Act))
    (p q : SysState × SysState) (h : pairRun acts p = some q) :
    ((∀ x ∈ acts, x.isLeft = true) → q.2 = p.2) ∧
    ((∀ x ∈ acts, x.isRight = true) → q.1 = p.1) := by
  induction acts generalizing p with
  | nil =>
      simp only [pairRun, Option.some.injEq] at h
      subst h
      exact ⟨fun _ => rfl, fun _ => rfl⟩
  | cons x rest ih =>
      simp only [pairRun] at h
      cases hx : pairStep x p with
      | none =>
          rw [hx] at h
          exact absurd h (by simp)
      | some p1 =>
          rw [hx, Option.some_bind] at h
          obtain ⟨ih1, ih2⟩ := ih p1 h
          constructor
          · intro hall
            have hx1 : x.isLeft = true := hall x (List.mem_cons_self x rest)
            have h2 : p1.2 = p.2 := by
              cases x with
              | inl a =>
                  simp only [pairStep] at hx
                  cases hs : step a p.1 with
                  | none =>
                      rw [hs] at hx
                      exact absurd hx (by simp)
                  | some s1 =>
                      rw [hs] at hx
                      simp only [Option.map_some', Option.some.injEq] at hx
                      rw [← hx]
              | inr a => simp at hx1
            rw [ih1 (fun y hy => hall y (List.mem_cons_of_mem x hy)), h2]
          · intro hall
            have hx1 : x.isRight = true := hall x (List.mem_cons_self x rest)
            have h2 : p1.1 = p.1 := by
              cases x with
              | inl a => simp at hx1
              | inr a =>
                  simp only [pairStep] at hx
                  cases hs : step a p.2 with
                  | none =>
                      rw [hs] at hx
                      exact absurd hx (by simp)
                  | some s1 =>
                      rw [hs] at hx
                      simp only [Option.map_some', Option.some.injEq] at hx
                      rw [← hx]
            rw [ih2 (fun y hy => hall y (List.mem_cons_of_mem x hy)), h2]

theorem limiter_independence_witness :
    pairRun [Sum.inl Act.waitRecv, Sum.inl Act.waitDec]
        (initState 1, initState 1)
      = some (drainedState 1, initState 1) ∧
    ((drainedState 1, initState 1) : SysState × SysState).2
      = ((initState 1, initState 1) : SysState × SysState).2 :=
  ⟨by decide,
    (limiter_independence [Sum.inl Act.waitRecv, Sum.inl Act.waitDec]
      (initState 1, initState 1) (drainedState 1, initState 1)
      (by decide)).1 (by simp)⟩

/-- C10 counterexample: at `rps = -3` the panic is the constructor's own
`make(chan struct\x7b\x7d, maxTokens)` size-out-of-range panic, not a
`time.NewTicker` panic in a spawned replenishment task — the constructor
aborts before the `go` statement, so no task is ever spawned and
`NewTicker` is never reached. -/
theorem negative_rps_panic_site_counterexample :
    newRateLimiter (-3) = Except.error GoPanic.makeChanSizeOutOfRange ∧
    GoPanic.makeChanSizeOutOfRange ≠ GoPanic.tickerNonPositiveInterval ∧
    (∀ r : InitResult, newRateLimiter (-3) ≠ Except.ok r) := by
  refine ⟨rfl, by decide, ?_⟩
  intro r hr
  simp [newRateLimiter] at hr

/-- C10 amended: `NewRateLimiter` declares no error result; for every
`rps ≤ 0` construction aborts by runtime panic rather than by a returned
error — for `rps = 0` the interval computation
`time.Second / time.Duration(0)` divides by zero, and for `rps < 0` the
constructor's `make(chan struct\x7b\x7d, maxTokens)` panics with a
size-out-of-range error before any replenishment task is spawned, so
`time.NewTicker` never runs. -/
theorem nonpos_rps_panic_mechanism (rps : Int) (h : rps ≤ 0) :
    "error" ∉ newRateLimiterResultTypes ∧
    (rps = 0 → newRateLimiter rps = Except.error GoPanic.divideByZero) ∧
    (rps < 0 → newRateLimiter rps = Except.error GoPanic.makeChanSizeOutOfRange) ∧
    (∃ p, newRateLimiter rps = Except.error p ∧
      p ≠ GoPanic.tickerNonPositiveInterval) := by
  refine ⟨by decide, ?_, ?_, ?_⟩
  · intro h0
    subst h0
    rfl
  · intro hlt
    simp [newRateLimiter, hlt]
  · rcases lt_or_eq_of_le h with hlt | heq
    · exact ⟨GoPanic.makeChanSizeOutOfRange, by simp [newRateLimiter, hlt],
        by decide⟩
    · subst heq
      exact ⟨GoPanic.divideByZero, rfl, by decide⟩

theorem nonpos_rps_panic_mechanism_witness :
    (0 : Int) ≤ 0 ∧
    ("error" ∉ newRateLimiterResultTypes ∧
      ((0 : Int) = 0 → newRateLimiter 0 = Except.error GoPanic.divideByZero) ∧
      ((0 : Int) < 0 →
        newRateLimiter 0 = Except.error GoPanic.makeChanSizeOutOfRange) ∧
      (∃ p, newRateLimiter 0 = Except.error p ∧
        p ≠ GoPanic.tickerNonPositiveInterval)) :=
  ⟨by decide, nonpos_rps_panic_mechanism 0 (by decide)⟩

end GoUtils.Ratelimiter
